import Mathlib

/-!
Verification of the conversation-orchestration and persistence core of the
`ai-talk-js` repository: a shallow embedding in Lean 4 of
`FileMessageStorage` (the file-backed Message/Request Store),
`LLMService.sendMessage`/`storeRequest` (the LLM client adapter and its
request logging), and `ChatService` (the conversation orchestrator:
`processUserMessage`, `prepareConversationHistory`, `clearAllMessages`).

Modelling conventions:
- JavaScript objects become Lean structures; `async` functions become pure
  functions with explicit state passing (store contents are `List`s).
- External effects are parameters: the result of the axios HTTP call is a
  function `llm : List ChatMsg → Except String LLMResponse`; the result of
  `PromptService.loadPrompt` is an `Except String String` (error or the
  prompt text); `new Date().toISOString()` is a `ts : String` parameter.
- The serialized JSON file behind `FileMessageStorage` is modelled as
  `Except String FileData` (the `fs.readFile` outcome), where
  `FileData := Option (List Msg)` abstracts `JSON.parse`: `some msgs` is a
  file parsing to `msgs`, `none` is malformed data on which `JSON.parse`
  throws.
- Thrown `Error`s become `Except.error` carrying the error message string.
-/

/-- Role/content pair, the shape of an entry of the `messages` array sent to
the LLM API (`{role, content}`). -/
structure ChatMsg where
  role : String
  content : String
deriving DecidableEq, Repr

/-- Fields supplied to `FileMessageStorage.addMessage` by its callers in
`ChatService` (`{content, role, timestamp}`). -/
structure MsgData where
  content : String
  role : String
  timestamp : String
deriving DecidableEq, Repr

/-- Stored chat message (a Turn): the fields of `MsgData` plus the `id`
assigned by `FileMessageStorage.addMessage`. -/
structure Msg where
  id : Nat
  content : String
  role : String
  timestamp : String
deriving DecidableEq, Repr

/-- Build a stored message from an id and the supplied fields, as
`addMessage` does with `{id: maxId + 1, ...message}`. -/
def Msg.ofData (id : Nat) (d : MsgData) : Msg :=
  ⟨id, d.content, d.role, d.timestamp⟩

/-- Strip a stored message to its role/content pair, as
`prepareConversationHistory` does with
`previousMessages.map(msg => ({role: msg.role, content: msg.content}))`. -/
def Msg.toChat (m : Msg) : ChatMsg :=
  ⟨m.role, m.content⟩

/-- One element of the `choices` array of an LLM API response. -/
structure LLMChoice where
  message : ChatMsg
deriving DecidableEq, Repr

/-- Body of a successful LLM API response (`{choices: [...]}`). -/
structure LLMResponse where
  choices : List LLMChoice
deriving DecidableEq, Repr

/-- Request Log Entry stored by `LLMService.storeRequest`: the generated id,
the derived `title`, the `content: {request, response}` payload (the request
is kept as its `messages` array), and the timestamp. -/
structure RequestEntry where
  id : Nat
  title : String
  requestMessages : List ChatMsg
  response : LLMResponse
  timestamp : String
deriving DecidableEq, Repr

namespace FileMessageStorage

/-- Maximum id among stored messages:
`messages.length > 0 ? Math.max(...messages.map(m => m.id)) : 0`. A fold
with initial value 0 gives exactly that (0 on the empty list, the maximum
id otherwise, ids being naturals). -/
def maxId (messages : List Msg) : Nat :=
  (messages.map Msg.id).foldr Nat.max 0

/-- Embedding of `FileMessageStorage.addMessage`: generate id `maxId + 1`,
push the new message, return the stored message and the new store
contents. The caller always supplies a timestamp, so the
`message.timestamp || new Date().toISOString()` default never fires. -/
def addMessage (messages : List Msg) (message : MsgData) :
    Msg × List Msg :=
  let newMessage : Msg := Msg.ofData (maxId messages + 1) message
  (newMessage, messages ++ [newMessage])

/-- Embedding of `FileMessageStorage.clearMessages`: write an empty array. -/
def clearMessages : List Msg :=
  []

/-- Embedding of the in-memory part of `FileMessageStorage.getMessages`
(after `readMessages` succeeded): `quantity = none` models `null`;
`quantity && typeof quantity === 'number'` is false for `null` and `0`,
so both return the whole list; otherwise `messages.slice(-quantity)`
takes the last `quantity` elements (the whole list when `quantity`
exceeds its length), then `reverseOrder` reverses the slice. -/
def getMessagesPure (messages : List Msg) (quantity : Option Nat)
    (reverseOrder : Bool) : List Msg :=
  match quantity with
  | some n =>
    if n ≠ 0 then
      let recentMessages := messages.drop (messages.length - n)
      if reverseOrder then recentMessages.reverse else recentMessages
    else
      if reverseOrder then messages.reverse else messages
  | none => if reverseOrder then messages.reverse else messages

/-- Contents of the backing JSON file as seen by `JSON.parse`: `some msgs`
when the file parses to a message array, `none` when the stored data is
malformed and `JSON.parse` throws. -/
def FileData : Type :=
  Option (List Msg)

/-- Embedding of `FileMessageStorage.readMessages`. The argument is the
outcome of `fs.readFile`: an I/O error (which the function does not catch,
so it propagates) or file data. A `JSON.parse` failure on the data read is
caught, logged, and an empty array is returned. -/
def readMessages (readFileResult : Except String FileData) :
    Except String (List Msg) :=
  match readFileResult with
  | .error e => .error e
  | .ok (some msgs) => .ok msgs
  | .ok none => .ok []

/-- Embedding of the full `FileMessageStorage.getMessages`: read the file
(propagating read errors), then select and order as `getMessagesPure`. -/
def getMessages (readFileResult : Except String FileData)
    (quantity : Option Nat) (reverseOrder : Bool) :
    Except String (List Msg) :=
  match readMessages readFileResult with
  | .error e => .error e
  | .ok messages => .ok (getMessagesPure messages quantity reverseOrder)

end FileMessageStorage

namespace LLMService

/-- Maximum id among stored request entries: the Request Store is a second
`FileMessageStorage` instance, whose `addMessage` id generation is the same
`max existing id, 0 when empty` computation. -/
def maxRequestId (entries : List RequestEntry) : Nat :=
  (entries.map RequestEntry.id).foldr Nat.max 0

/-- Splitting a character list at every character satisfying `p`, keeping
empty pieces between consecutive separators and producing one (possibly
empty) trailing piece — the behavior of JavaScript `String.split` with a
one-character separator (and, with a whitespace predicate, of splitting at
every whitespace character). `acc` holds the current piece reversed. -/
def splitByAux (p : Char → Bool) : List Char → List Char → List String
  | [], acc => [String.mk acc.reverse]
  | c :: cs, acc =>
    if p c then String.mk acc.reverse :: splitByAux p cs []
    else splitByAux p cs (c :: acc)

/-- Split a string at every character satisfying `p` (see `splitByAux`);
on the empty string this gives `[""]`, as JavaScript `split` does. -/
def splitBy (p : Char → Bool) (s : String) : List String :=
  splitByAux p s.data []

/-- Title derivation inside `LLMService.storeRequest`:
`titleWords = lastUserMessage.split(' ').slice(0, 5).join(' ')` and
`title = titleWords + (lastUserMessage.length > titleWords.length ? '...' : '')`.
JavaScript `split(' ')` splits at each occurrence of the single space
character (keeping empty pieces between consecutive separators and
returning one empty piece for the empty string), which
`splitBy (fun c => c = ' ')` matches. -/
def requestTitle (lastUserMessage : String) : String :=
  let titleWords :=
    String.intercalate " " ((splitBy (fun c => c = ' ') lastUserMessage).take 5)
  titleWords ++ (if titleWords.length < lastUserMessage.length then "..." else "")

/-- Embedding of `LLMService.storeRequest` for a configured request storage:
take the last `role === 'user'` message of the request (empty string when
there is none), derive the title from its first words (`requestTitle`), and
append the entry through the Request Store's `addMessage` (which assigns
`maxRequestId + 1`). -/
def storeRequest (requestMessages : List ChatMsg) (response : LLMResponse)
    (ts : String) (store : List RequestEntry) : List RequestEntry :=
  let userMessages := requestMessages.filter (fun m => m.role = "user")
  let lastUserMessage :=
    match userMessages.getLast? with
    | some m => m.content
    | none => ""
  let title := requestTitle lastUserMessage
  store ++ [⟨maxRequestId store + 1, title, requestMessages, response, ts⟩]

/-- Embedding of `LLMService.sendMessage` with a configured request storage.
The `llm` parameter is the outcome of the axios POST for a given `messages`
array. On HTTP success the request/response pair is logged through
`storeRequest` (whose own errors are swallowed; in this model the log write
succeeds) and the response body is returned. On HTTP failure the error is
rethrown as `Failed to get LLM response: ...` and nothing is logged. -/
def sendMessage (llm : List ChatMsg → Except String LLMResponse)
    (ts : String) (store : List RequestEntry) (messages : List ChatMsg) :
    Except String (LLMResponse × List RequestEntry) :=
  match llm messages with
  | .error e => .error ("Failed to get LLM response: " ++ e)
  | .ok resp => .ok (resp, storeRequest messages resp ts store)

end LLMService

/-- Combined state of the two stores the orchestrator borrows: the Message
Store contents and the Request Store contents. -/
structure ChatState where
  messages : List Msg
  requests : List RequestEntry
deriving DecidableEq, Repr

namespace ChatService

/-- Embedding of `ChatService.validateUserMessage`: `if (!content) throw`.
For a string argument `!content` is true exactly on the empty string. -/
def validateUserMessage (content : String) : Except String Unit :=
  if content = "" then .error "Message content is required" else .ok ()

/-- Embedding of `ChatService.prepareConversationHistory`. The first
argument is the outcome of `promptService.loadPrompt('system.prompt.xml')`.
On success the context is the system prompt followed by the stored messages
(role/content only) — the freshly persisted user turn is already among them
and nothing is appended inline. On failure the catch block re-reads the
store and appends the new turn inline after it. -/
def prepareConversationHistory (systemPrompt : Except String String)
    (userContent userRole : String) (stored : List Msg) : List ChatMsg :=
  match systemPrompt with
  | .ok sp => ⟨"system", sp⟩ :: stored.map Msg.toChat
  | .error _ => stored.map Msg.toChat ++ [⟨userRole, userContent⟩]

/-- Embedding of `ChatService.validateLLMResponse`: throw on a missing or
empty `choices` array (the response object itself is present by typing). -/
def validateLLMResponse (response : LLMResponse) : Except String Unit :=
  if response.choices.length = 0 then
    .error "Invalid response from LLM service"
  else
    .ok ()

/-- Embedding of `ChatService.extractAssistantContent`:
`llmResponse.choices[0].message.content`. The function is only called on
responses that passed `validateLLMResponse`, so the `headD` default for an
empty `choices` array is unreachable on that path. -/
def extractAssistantContent (llmResponse : LLMResponse) : String :=
  ((llmResponse.choices.headD ⟨⟨"", ""⟩⟩).message).content

/-- Embedding of `ChatService.getLLMResponse`: call
`LLMService.sendMessage`, then `validateLLMResponse`; any error thrown in
the try block — the transport failure or the validation failure — is
rethrown as `LLM API call failed: ...`. The Request Store contents are
returned alongside, because a response that fails validation was already
logged by `sendMessage` before the validation throw. -/
def getLLMResponse (llm : List ChatMsg → Except String LLMResponse)
    (ts : String) (store : List RequestEntry) (messages : List ChatMsg) :
    Except String LLMResponse × List RequestEntry :=
  match LLMService.sendMessage llm ts store messages with
  | .error e => (.error ("LLM API call failed: " ++ e), store)
  | .ok (resp, store') =>
    match validateLLMResponse resp with
    | .error e => (.error ("LLM API call failed: " ++ e), store')
    | .ok _ => (.ok resp, store')

/-- Embedding of `ChatService.processUserMessage`: validate, persist the
user turn, build the conversation context, call the LLM, extract and persist
the assistant turn. The result pairs the returned value (or the thrown
error) with the final contents of both stores. -/
def processUserMessage (systemPrompt : Except String String)
    (llm : List ChatMsg → Except String LLMResponse)
    (userContent userRole ts : String) (s : ChatState) :
    Except String MsgData × ChatState :=
  match validateUserMessage userContent with
  | .error e => (.error e, s)
  | .ok _ =>
    let messages1 :=
      (FileMessageStorage.addMessage s.messages
        ⟨userContent, userRole, ts⟩).2
    let conversationHistory :=
      prepareConversationHistory systemPrompt userContent userRole messages1
    match getLLMResponse llm ts s.requests conversationHistory with
    | (.error e, requests1) => (.error e, ⟨messages1, requests1⟩)
    | (.ok llmResponse, requests1) =>
      let responseContent := extractAssistantContent llmResponse
      let stored :=
        FileMessageStorage.addMessage messages1
          ⟨responseContent, "assistant", ts⟩
      (.ok ⟨responseContent, "assistant", stored.1.timestamp⟩,
        ⟨stored.2, requests1⟩)

/-- Embedding of `ChatService.getAllMessages`: delegate to
`getMessages(limit, false)` on an intact store. -/
def getAllMessages (messages : List Msg) (limit : Option Nat) : List Msg :=
  FileMessageStorage.getMessagesPure messages limit false

/-- Embedding of `ChatService.clearAllMessages` with a configured request
storage: clear both stores, then try to load `initial-message.html` (the
`welcome` argument is that load's outcome) and append it as an assistant
turn; on success return the updated message list, on failure return the
current — cleared — message list instead of raising. -/
def clearAllMessages (welcome : Except String String) (ts : String)
    (_s : ChatState) : List Msg × ChatState :=
  let clearedMessages := FileMessageStorage.clearMessages
  let clearedRequests : List RequestEntry := []
  match welcome with
  | .ok initialMessage =>
    let messages1 :=
      (FileMessageStorage.addMessage clearedMessages
        ⟨initialMessage, "assistant", ts⟩).2
    (getAllMessages messages1 none, ⟨messages1, clearedRequests⟩)
  | .error _ =>
    (getAllMessages clearedMessages none, ⟨clearedMessages, clearedRequests⟩)

end ChatService

/-- Reading of the specification's description of a Request Log Entry title
("the first 5 whitespace-separated words of the last user message, with the
suffix `...` appended iff the full message text is longer than the joined
first-5-words prefix"), stated from the spec's words for comparison with
`LLMService.requestTitle`, which follows the source. Words here are
separated by any whitespace character. -/
def specTitleWhitespaceWords (message : String) : String :=
  let words := (LLMService.splitBy Char.isWhitespace message).take 5
  let joined := String.intercalate " " words
  joined ++ (if joined.length < message.length then "..." else "")

/-! Helper lemmas about the id computation and the orchestrator's control
flow, shared by the claim theorems below. -/

/-- Folding `Nat.max` from an arbitrary initial value factors through the
fold from 0. -/
theorem foldr_max_init (l : List Nat) (a : Nat) :
    l.foldr Nat.max a = Nat.max a (l.foldr Nat.max 0) := by
  induction l with
  | nil => simp
  | cons x xs ih =>
    simp only [List.foldr_cons, ih]
    exact Nat.max_left_comm x a (List.foldr Nat.max 0 xs)

/-- Appending one message bumps `maxId` to the maximum of the old value and
the new id. -/
theorem maxId_append_singleton (s : List Msg) (m : Msg) :
    FileMessageStorage.maxId (s ++ [m])
      = Nat.max m.id (FileMessageStorage.maxId s) := by
  simp only [FileMessageStorage.maxId, List.map_append, List.foldr_append,
    List.map_cons, List.map_nil, List.foldr_cons, List.foldr_nil]
  rw [foldr_max_init]
  simp [Nat.max_zero]

/-- Outcome of `ChatService.getLLMResponse` when the transport call
succeeds and the response has a non-empty `choices` array. -/
theorem getLLMResponse_ok (llm : List ChatMsg → Except String LLMResponse)
    (ts : String) (store : List RequestEntry) (messages : List ChatMsg)
    (resp : LLMResponse) (hllm : llm messages = .ok resp)
    (hne : resp.choices ≠ []) :
    ChatService.getLLMResponse llm ts store messages
      = (.ok resp, LLMService.storeRequest messages resp ts store) := by
  simp [ChatService.getLLMResponse, LLMService.sendMessage, hllm,
    ChatService.validateLLMResponse, List.length_eq_zero, hne]

/-- Outcome of `ChatService.getLLMResponse` when the transport call
fails. -/
theorem getLLMResponse_err (llm : List ChatMsg → Except String LLMResponse)
    (ts : String) (store : List RequestEntry) (messages : List ChatMsg)
    (e : String) (hllm : llm messages = .error e) :
    ChatService.getLLMResponse llm ts store messages
      = (.error ("LLM API call failed: " ++ ("Failed to get LLM response: " ++ e)),
          store) := by
  simp [ChatService.getLLMResponse, LLMService.sendMessage, hllm]

/-- Outcome of `ChatService.getLLMResponse` when the transport call
succeeds but the response has an empty `choices` array: the request is
already logged, then validation throws. -/
theorem getLLMResponse_invalid (llm : List ChatMsg → Except String LLMResponse)
    (ts : String) (store : List RequestEntry) (messages : List ChatMsg)
    (resp : LLMResponse) (hllm : llm messages = .ok resp)
    (hempty : resp.choices = []) :
    ChatService.getLLMResponse llm ts store messages
      = (.error "LLM API call failed: Invalid response from LLM service",
          LLMService.storeRequest messages resp ts store) := by
  simp [ChatService.getLLMResponse, LLMService.sendMessage, hllm,
    ChatService.validateLLMResponse, hempty]

/-- Unfolding of `ChatService.processUserMessage` for non-empty content. -/
theorem processUserMessage_eq (systemPrompt : Except String String)
    (llm : List ChatMsg → Except String LLMResponse)
    (content role ts : String) (s : ChatState) (h : content ≠ "") :
    ChatService.processUserMessage systemPrompt llm content role ts s
      = (match ChatService.getLLMResponse llm ts s.requests
            (ChatService.prepareConversationHistory systemPrompt content role
              (FileMessageStorage.addMessage s.messages ⟨content, role, ts⟩).2) with
        | (.error e, requests1) =>
          (.error e,
            ⟨(FileMessageStorage.addMessage s.messages ⟨content, role, ts⟩).2,
              requests1⟩)
        | (.ok llmResponse, requests1) =>
          (.ok ⟨ChatService.extractAssistantContent llmResponse, "assistant",
              (FileMessageStorage.addMessage
                (FileMessageStorage.addMessage s.messages ⟨content, role, ts⟩).2
                ⟨ChatService.extractAssistantContent llmResponse, "assistant",
                  ts⟩).1.timestamp⟩,
            ⟨(FileMessageStorage.addMessage
                (FileMessageStorage.addMessage s.messages ⟨content, role, ts⟩).2
                ⟨ChatService.extractAssistantContent llmResponse, "assistant",
                  ts⟩).2,
              requests1⟩)) := by
  simp [ChatService.processUserMessage, ChatService.validateUserMessage, h]

/-- C2: on any store contents, `addMessage` returns a Turn whose id is the
maximum id currently in the store plus 1; two consecutive appends return
ids that differ by exactly 1; the first append after `clearMessages` (or on
a fresh empty store) returns id 1. -/
theorem append_id_monotonic_spec (s : List Msg) (d d' : MsgData) :
    (FileMessageStorage.addMessage s d).1.id = FileMessageStorage.maxId s + 1
    ∧ (FileMessageStorage.addMessage
          (FileMessageStorage.addMessage s d).2 d').1.id
        = (FileMessageStorage.addMessage s d).1.id + 1
    ∧ (FileMessageStorage.addMessage FileMessageStorage.clearMessages d).1.id = 1
    ∧ (FileMessageStorage.addMessage ([] : List Msg) d).1.id = 1 := by
  refine ⟨rfl, ?_, rfl, rfl⟩
  show FileMessageStorage.maxId
      (s ++ [Msg.ofData (FileMessageStorage.maxId s + 1) d]) + 1
    = FileMessageStorage.maxId s + 1 + 1
  rw [maxId_append_singleton]
  simp [Msg.ofData, Nat.max_eq_left (Nat.le_succ _)]

/-- C3: `getMessages` with no limit returns the store in append order, and
its exact reverse when `reverseOrder` is set; a limit of `0` is treated as
"all"; a limit `n` with `0 < n ≤ size` returns exactly the last `n`
appended records in original order (the length-`n` suffix of the store),
reversed when `reverseOrder` is set; a limit greater than the size returns
the whole store. -/
theorem read_order_spec (msgs : List Msg) (n : Nat) :
    FileMessageStorage.getMessagesPure msgs none false = msgs
    ∧ FileMessageStorage.getMessagesPure msgs none true = msgs.reverse
    ∧ FileMessageStorage.getMessagesPure msgs (some 0) false = msgs
    ∧ FileMessageStorage.getMessagesPure msgs (some 0) true = msgs.reverse
    ∧ (0 < n → n ≤ msgs.length →
        FileMessageStorage.getMessagesPure msgs (some n) false
            = msgs.drop (msgs.length - n)
        ∧ (FileMessageStorage.getMessagesPure msgs (some n) false).length = n
        ∧ msgs.take (msgs.length - n)
            ++ FileMessageStorage.getMessagesPure msgs (some n) false = msgs
        ∧ FileMessageStorage.getMessagesPure msgs (some n) true
            = (FileMessageStorage.getMessagesPure msgs (some n) false).reverse)
    ∧ (msgs.length < n →
        FileMessageStorage.getMessagesPure msgs (some n) false = msgs
        ∧ FileMessageStorage.getMessagesPure msgs (some n) true
            = msgs.reverse) := by
  refine ⟨rfl, rfl, rfl, rfl, ?_, ?_⟩
  · intro h0 hle
    have hne : n ≠ 0 := Nat.pos_iff_ne_zero.mp h0
    refine ⟨by simp [FileMessageStorage.getMessagesPure, hne], ?_, ?_, ?_⟩
    · simp [FileMessageStorage.getMessagesPure, hne]
      omega
    · simp [FileMessageStorage.getMessagesPure, hne, List.take_append_drop]
    · simp [FileMessageStorage.getMessagesPure, hne]
  · intro hlt
    have hne : n ≠ 0 := by omega
    have hz : msgs.length - n = 0 := Nat.sub_eq_zero_of_le (le_of_lt hlt)
    constructor
    · simp [FileMessageStorage.getMessagesPure, hne, hz]
    · simp [FileMessageStorage.getMessagesPure, hne, hz]

/-- C3 witness: the claim instantiated on a concrete two-element store with
limit 1. -/
theorem read_order_spec_witness :
    FileMessageStorage.getMessagesPure
        [⟨1, "hi", "user", "t"⟩, ⟨2, "hello", "assistant", "t"⟩] (some 1) true
      = [⟨2, "hello", "assistant", "t"⟩] := by
  have h := read_order_spec
    [⟨1, "hi", "user", "t"⟩, ⟨2, "hello", "assistant", "t"⟩] 1
  have h5 := h.2.2.2.2.1 (by decide) (by decide)
  rw [h5.2.2.2, h5.1]
  decide

/-- C4: `processUserMessage` with empty content fails with the validation
error and leaves the whole state — both stores — unchanged, for every
system-prompt outcome, LLM behavior, role, timestamp, and prior state. -/
theorem processTurn_empty_content_spec (systemPrompt : Except String String)
    (llm : List ChatMsg → Except String LLMResponse)
    (role ts : String) (s : ChatState) :
    ChatService.processUserMessage systemPrompt llm "" role ts s
      = (.error "Message content is required", s) := by
  rfl

/-- C5: `clearAllMessages` leaves the Message Store containing exactly the
single welcome assistant Turn (id 1) and the Request Store empty, returning
that one-element turn list, for every prior state; when loading the welcome
content fails, both stores are still cleared and the now-empty turn list is
returned rather than an error. -/
theorem resetConversation_spec (welcomeText e ts : String) (s : ChatState) :
    ChatService.clearAllMessages (.ok welcomeText) ts s
        = ([Msg.ofData 1 ⟨welcomeText, "assistant", ts⟩],
            ⟨[Msg.ofData 1 ⟨welcomeText, "assistant", ts⟩], []⟩)
    ∧ ChatService.clearAllMessages (.error e) ts s = ([], ⟨[], []⟩) :=
  ⟨rfl, rfl⟩

/-- C9 counterexample: a store file holding malformed data (`JSON.parse`
fails, modelled by file data `none`) does not fail the read: `readMessages`
catches the parse error and the operation succeeds with an empty result,
contradicting the claim that a parse failure is surfaced to the caller. -/
theorem storage_parse_failure_counterexample :
    FileMessageStorage.readMessages (.ok none) = .ok []
    ∧ FileMessageStorage.getMessages (.ok none) none false = .ok [] :=
  ⟨rfl, rfl⟩

/-- C9 amended: an I/O failure reading the store file propagates out of
`getMessages` unchanged (never swallowed); a successful read of well-formed
data yields the selected records; malformed stored data is the one
exception — the parse error is caught and the operation succeeds with the
empty record set. -/
theorem storage_read_error_spec (e : String) (q : Option Nat) (r : Bool)
    (msgs : List Msg) :
    FileMessageStorage.getMessages (.error e) q r = .error e
    ∧ FileMessageStorage.getMessages (.ok (some msgs)) q r
        = .ok (FileMessageStorage.getMessagesPure msgs q r)
    ∧ FileMessageStorage.getMessages (.ok none) q r = .ok [] := by
  refine ⟨rfl, rfl, ?_⟩
  show Except.ok (FileMessageStorage.getMessagesPure [] q r)
    = Except.ok ([] : List Msg)
  cases q with
  | none => cases r <;> rfl
  | some n =>
    simp only [FileMessageStorage.getMessagesPure]
    split_ifs <;> simp

/-- C1: for non-empty content, `processUserMessage` appends exactly one
user Turn, and — when the LLM call succeeds with a non-empty `choices`
array — exactly one assistant Turn after it (two appends total), returning
the assistant reply; when the LLM call fails, the Message Store holds
exactly the prior contents plus the user's Turn (not rolled back) and the
call fails with the upstream `LLM API call failed: ...` error. -/
theorem processTurn_append_counts_spec (systemPrompt : Except String String)
    (llm : List ChatMsg → Except String LLMResponse)
    (content role ts : String) (s : ChatState) (h : content ≠ "") :
    (∀ resp : LLMResponse,
      llm (ChatService.prepareConversationHistory systemPrompt content role
            (FileMessageStorage.addMessage s.messages ⟨content, role, ts⟩).2)
          = .ok resp →
      resp.choices ≠ [] →
      (ChatService.processUserMessage systemPrompt llm content role ts s).2.messages
          = s.messages
            ++ [Msg.ofData (FileMessageStorage.maxId s.messages + 1)
                  ⟨content, role, ts⟩,
                Msg.ofData (FileMessageStorage.maxId
                    (FileMessageStorage.addMessage s.messages
                      ⟨content, role, ts⟩).2 + 1)
                  ⟨ChatService.extractAssistantContent resp, "assistant", ts⟩]
        ∧ (ChatService.processUserMessage systemPrompt llm content role ts s).1
          = .ok ⟨ChatService.extractAssistantContent resp, "assistant", ts⟩)
    ∧ (∀ e : String,
      llm (ChatService.prepareConversationHistory systemPrompt content role
            (FileMessageStorage.addMessage s.messages ⟨content, role, ts⟩).2)
          = .error e →
      (ChatService.processUserMessage systemPrompt llm content role ts s).2.messages
          = s.messages
            ++ [Msg.ofData (FileMessageStorage.maxId s.messages + 1)
                  ⟨content, role, ts⟩]
        ∧ (ChatService.processUserMessage systemPrompt llm content role ts s).1
          = .error ("LLM API call failed: "
              ++ ("Failed to get LLM response: " ++ e))) := by
  constructor
  · intro resp hllm hchoices
    rw [processUserMessage_eq systemPrompt llm content role ts s h,
      getLLMResponse_ok llm ts s.requests _ resp hllm hchoices]
    exact ⟨by simp [FileMessageStorage.addMessage], rfl⟩
  · intro e hllm
    rw [processUserMessage_eq systemPrompt llm content role ts s h,
      getLLMResponse_err llm ts s.requests _ e hllm]
    exact ⟨by simp [FileMessageStorage.addMessage], rfl⟩

/-- C1 witness: the claim instantiated on an empty state, a succeeding LLM
for the success half and a failing LLM for the failure half. -/
theorem processTurn_append_counts_spec_witness :
    (ChatService.processUserMessage (.ok "SYS")
        (fun _ => .ok ⟨[⟨⟨"assistant", "hi"⟩⟩]⟩) "hello" "user" "t"
        ⟨[], []⟩).2.messages
      = [⟨1, "hello", "user", "t"⟩, ⟨2, "hi", "assistant", "t"⟩]
    ∧ (ChatService.processUserMessage (.ok "SYS")
        (fun _ => .error "boom") "hello" "user" "t" ⟨[], []⟩).2.messages
      = [⟨1, "hello", "user", "t"⟩] := by
  constructor
  · have h := (processTurn_append_counts_spec (.ok "SYS")
      (fun _ => .ok ⟨[⟨⟨"assistant", "hi"⟩⟩]⟩) "hello" "user" "t" ⟨[], []⟩
      (by decide)).1 ⟨[⟨⟨"assistant", "hi"⟩⟩]⟩ rfl (by decide)
    exact h.1
  · have h := (processTurn_append_counts_spec (.ok "SYS")
      (fun _ => .error "boom") "hello" "user" "t" ⟨[], []⟩
      (by decide)).2 "boom" rfl
    exact h.1

/-- C6: when the system prompt loads successfully it is the first element
of the conversation context built for the LLM call, and it is never itself
appended to the Message Store: every message in the store after
`processUserMessage` was already there, or carries the caller's role, or
carries the `assistant` role — for every LLM behavior. -/
theorem systemPrompt_first_and_not_persisted_spec (sp : String)
    (llm : List ChatMsg → Except String LLMResponse)
    (content role ts : String) (s : ChatState) (h : content ≠ "") :
    (ChatService.prepareConversationHistory (.ok sp) content role
        (FileMessageStorage.addMessage s.messages ⟨content, role, ts⟩).2).head?
      = some ⟨"system", sp⟩
    ∧ ∀ m ∈ (ChatService.processUserMessage (.ok sp) llm content role ts
          s).2.messages,
        m ∈ s.messages ∨ m.role = role ∨ m.role = "assistant" := by
  constructor
  · rfl
  · intro m hm
    rw [processUserMessage_eq (.ok sp) llm content role ts s h] at hm
    rcases hllm : llm (ChatService.prepareConversationHistory (.ok sp) content
        role (FileMessageStorage.addMessage s.messages ⟨content, role, ts⟩).2)
      with e | resp
    · rw [getLLMResponse_err llm ts s.requests _ e hllm] at hm
      simp only [FileMessageStorage.addMessage, List.mem_append,
        List.mem_singleton] at hm
      rcases hm with hm | rfl
      · exact Or.inl hm
      · exact Or.inr (Or.inl rfl)
    · by_cases hc : resp.choices = []
      · rw [getLLMResponse_invalid llm ts s.requests _ resp hllm hc] at hm
        simp only [FileMessageStorage.addMessage, List.mem_append,
          List.mem_singleton] at hm
        rcases hm with hm | rfl
        · exact Or.inl hm
        · exact Or.inr (Or.inl rfl)
      · rw [getLLMResponse_ok llm ts s.requests _ resp hllm hc] at hm
        simp only [FileMessageStorage.addMessage, List.mem_append,
          List.mem_singleton] at hm
        rcases hm with (hm | rfl) | rfl
        · exact Or.inl hm
        · exact Or.inr (Or.inl rfl)
        · exact Or.inr (Or.inr rfl)

/-- C6 witness: the head of the context on a concrete invocation with a
successfully loaded system prompt. -/
theorem systemPrompt_first_spec_witness :
    (ChatService.prepareConversationHistory (.ok "SYS") "hello" "user"
        (FileMessageStorage.addMessage [] ⟨"hello", "user", "t"⟩).2).head?
      = some ⟨"system", "SYS"⟩ := by
  have h := systemPrompt_first_and_not_persisted_spec "SYS"
    (fun _ => .ok ⟨[⟨⟨"assistant", "hi"⟩⟩]⟩) "hello" "user" "t" ⟨[], []⟩
    (by decide)
  exact h.1

/-- C7: the context built after the user turn was persisted contains that
turn exactly once when the system prompt loads (it comes from the store
read), but twice when the system prompt fails to load — the catch branch
re-reads the store, which already holds the fresh user turn, and appends
the turn inline again. Exact context shapes, plus occurrence counts when no
prior stored turn coincides with the new one. -/
theorem context_duplicate_user_turn_spec (sp e content role ts : String)
    (s : ChatState) :
    (ChatService.prepareConversationHistory (.ok sp) content role
        (FileMessageStorage.addMessage s.messages ⟨content, role, ts⟩).2
      = ⟨"system", sp⟩ :: (s.messages.map Msg.toChat ++ [⟨role, content⟩]))
    ∧ (ChatService.prepareConversationHistory (.error e) content role
        (FileMessageStorage.addMessage s.messages ⟨content, role, ts⟩).2
      = s.messages.map Msg.toChat ++ [⟨role, content⟩, ⟨role, content⟩])
    ∧ ((∀ m ∈ s.messages, ¬(m.role = role ∧ m.content = content)) →
        role ≠ "system" →
        (ChatService.prepareConversationHistory (.ok sp) content role
            (FileMessageStorage.addMessage s.messages
              ⟨content, role, ts⟩).2).countP
            (fun x => decide (x = (⟨role, content⟩ : ChatMsg))) = 1
        ∧ (ChatService.prepareConversationHistory (.error e) content role
            (FileMessageStorage.addMessage s.messages
              ⟨content, role, ts⟩).2).countP
            (fun x => decide (x = (⟨role, content⟩ : ChatMsg))) = 2) := by
  have hok : ChatService.prepareConversationHistory (.ok sp) content role
      (FileMessageStorage.addMessage s.messages ⟨content, role, ts⟩).2
    = ⟨"system", sp⟩ :: (s.messages.map Msg.toChat ++ [⟨role, content⟩]) := by
    simp [ChatService.prepareConversationHistory, FileMessageStorage.addMessage,
      Msg.toChat, Msg.ofData]
  have herr : ChatService.prepareConversationHistory (.error e) content role
      (FileMessageStorage.addMessage s.messages ⟨content, role, ts⟩).2
    = s.messages.map Msg.toChat ++ [⟨role, content⟩, ⟨role, content⟩] := by
    simp [ChatService.prepareConversationHistory, FileMessageStorage.addMessage,
      Msg.toChat, Msg.ofData]
  refine ⟨hok, herr, ?_⟩
  intro hnot hr
  have hzero : (s.messages.map Msg.toChat).countP
      (fun x => decide (x = (⟨role, content⟩ : ChatMsg))) = 0 := by
    rw [List.countP_eq_zero]
    intro a ha
    rcases List.mem_map.mp ha with ⟨m, hm, rfl⟩
    simp only [Msg.toChat, decide_eq_true_eq, ChatMsg.mk.injEq]
    intro hc
    exact hnot m hm hc
  constructor
  · rw [hok]
    simp [List.countP_cons, List.countP_append, hzero, ChatMsg.mk.injEq,
      Ne.symm hr]
  · rw [herr]
    simp [List.countP_cons, List.countP_append, hzero]

/-- C7 witness: on an empty prior store the degraded (no system prompt)
context contains the fresh user turn twice. -/
theorem context_duplicate_user_turn_spec_witness :
    (ChatService.prepareConversationHistory (.error "e") "hello" "user"
        (FileMessageStorage.addMessage [] ⟨"hello", "user", "t"⟩).2).countP
        (fun x => decide (x = (⟨"user", "hello"⟩ : ChatMsg))) = 2 := by
  have h := (context_duplicate_user_turn_spec "SYS" "e" "hello" "user" "t"
    ⟨[], []⟩).2.2 (by simp) (by decide)
  exact h.2

/-- C8: when the LLM transport succeeds but the response has an empty
`choices` array, `processUserMessage` fails with the
`Invalid response from LLM service` error (wrapped as an LLM API call
failure) and the Message Store holds exactly the prior contents plus the
user's Turn — no assistant Turn is appended. -/
theorem empty_choices_spec (systemPrompt : Except String String)
    (llm : List ChatMsg → Except String LLMResponse)
    (content role ts : String) (s : ChatState) (resp : LLMResponse)
    (h : content ≠ "")
    (hllm : llm (ChatService.prepareConversationHistory systemPrompt content
        role (FileMessageStorage.addMessage s.messages
          ⟨content, role, ts⟩).2) = .ok resp)
    (hempty : resp.choices = []) :
    (ChatService.processUserMessage systemPrompt llm content role ts s).1
        = .error "LLM API call failed: Invalid response from LLM service"
    ∧ (ChatService.processUserMessage systemPrompt llm content role ts
          s).2.messages
        = s.messages ++ [Msg.ofData (FileMessageStorage.maxId s.messages + 1)
            ⟨content, role, ts⟩] := by
  rw [processUserMessage_eq systemPrompt llm content role ts s h,
    getLLMResponse_invalid llm ts s.requests _ resp hllm hempty]
  exact ⟨rfl, by simp [FileMessageStorage.addMessage]⟩

/-- C8 witness: the claim instantiated on an empty state and an LLM
returning `choices: []`. -/
theorem empty_choices_spec_witness :
    (ChatService.processUserMessage (.ok "SYS") (fun _ => .ok ⟨[]⟩)
        "hello" "user" "t" ⟨[], []⟩).1
      = .error "LLM API call failed: Invalid response from LLM service"
    ∧ (ChatService.processUserMessage (.ok "SYS") (fun _ => .ok ⟨[]⟩)
        "hello" "user" "t" ⟨[], []⟩).2.messages
      = [⟨1, "hello", "user", "t"⟩] := by
  have h := empty_choices_spec (.ok "SYS") (fun _ => .ok ⟨[]⟩) "hello" "user"
    "t" ⟨[], []⟩ ⟨[]⟩ (by decide) rfl rfl
  exact ⟨h.1, h.2⟩

/-- C10 counterexample: the stored title is not the first 5
whitespace-separated words of the last user message. For the message
`"a\tb c d e f g"` the first 5 whitespace-separated words give
`"a b c d e..."`, but the source splits on the space character only
(JavaScript `split(' ')`), so the tab does not separate words and the
stored title is `"a\tb c d e f..."`. -/
theorem request_title_counterexample :
    LLMService.requestTitle "a\tb c d e f g"
        ≠ specTitleWhitespaceWords "a\tb c d e f g"
    ∧ (LLMService.storeRequest [⟨"user", "a\tb c d e f g"⟩] ⟨[]⟩ "t" []).map
        RequestEntry.title = ["a\tb c d e f..."]
    ∧ specTitleWhitespaceWords "a\tb c d e f g" = "a b c d e..." := by
  refine ⟨by decide, rfl, rfl⟩

/-- C10 amended: every successful LLM call whose request contains at least
one user message appends exactly one Request Log Entry whose title is the
first 5 space-separated tokens of the last user message (splitting on the
single space character, as JavaScript `split(' ')` does — other whitespace
does not separate tokens), joined by single spaces, with `...` appended if
and only if the full message text is longer than that joined prefix. -/
theorem request_log_title_spec (llm : List ChatMsg → Except String LLMResponse)
    (messages : List ChatMsg) (resp : LLMResponse) (ts : String)
    (store : List RequestEntry) (u : ChatMsg)
    (hllm : llm messages = .ok resp)
    (hlast : (messages.filter (fun m => m.role = "user")).getLast? = some u) :
    LLMService.sendMessage llm ts store messages
      = .ok (resp, store ++ [⟨LLMService.maxRequestId store + 1,
          String.intercalate " "
              ((LLMService.splitBy (fun c => c = ' ') u.content).take 5)
            ++ (if (String.intercalate " "
                  ((LLMService.splitBy (fun c => c = ' ') u.content).take
                    5)).length
                  < u.content.length then "..." else ""),
          messages, resp, ts⟩]) := by
  simp [LLMService.sendMessage, hllm, LLMService.storeRequest, hlast,
    LLMService.requestTitle]

/-- C10 witness: a concrete successful call whose last user message is
`"hello world"`; the logged entry's title is `"hello world"` with no
ellipsis. -/
theorem request_log_title_spec_witness :
    LLMService.sendMessage (fun _ => .ok ⟨[]⟩) "t" []
        [⟨"user", "hello world"⟩]
      = .ok (⟨[]⟩,
          [⟨1, "hello world", [⟨"user", "hello world"⟩], ⟨[]⟩, "t"⟩]) := by
  have h := request_log_title_spec (fun _ => .ok ⟨[]⟩)
    [⟨"user", "hello world"⟩] ⟨[]⟩ "t" [] ⟨"user", "hello world"⟩ rfl rfl
  exact h
